import Mathlib

/-!
Verification of the battleship micro:bit repository: a shallow embedding of
the message-key catalog, the coordinate codec, ship placement and validity,
the cursor, and the pairing / placement / play state machine, together with
theorems settling the specification claims.
-/

namespace Battleship

/-- A 2D coordinate on the 5x5 LED grid, `(x, y)`.
Embeds the TypeScript tuple type `Coordinate = [uint8, uint8]`; components are
modelled as integers because JavaScript arithmetic on them is integer valued. -/
abbrev Coordinate := Int × Int

/-- JavaScript remainder `a % b` truncates toward zero, which is `Int.tmod`. -/
def jsMod (a b : Int) : Int := Int.tmod a b

/-- JavaScript `Math.floor(a / b)` on integers is flooring division `Int.fdiv`. -/
def jsFloorDiv (a b : Int) : Int := Int.fdiv a b

/-- Embeds `GameRadio.coordinatesToNumber`: `coordinates[0] + 5 * coordinates[1]`. -/
def coordinatesToNumber (coordinates : Coordinate) : Int :=
  coordinates.1 + 5 * coordinates.2

/-- Embeds `GameRadio.numberToCoordinates`: `[number % 5, Math.floor(number / 5)]`. -/
def numberToCoordinates (number : Int) : Coordinate :=
  (jsMod number 5, jsFloorDiv number 5)

/-- The eight kinds of radio message of the final `RadioMessageEnum` /
`IRadioMessageEnum` catalog. -/
inductive RadioMessageKind where
  | playerJoined
  | playerLeft
  | proceedingToSetup
  | shipsPlaced
  | startGame
  | attack
  | hit
  | miss
deriving DecidableEq

/-- Embeds the `RadioMessageEnum` constant: the short wire key assigned to each
message kind, exactly as written in the source catalog. -/
def RadioMessageEnum : RadioMessageKind → String
  | .playerJoined => "nPj"
  | .playerLeft => "nPl"
  | .proceedingToSetup => "nP2"
  | .shipsPlaced => "nPl"
  | .startGame => "nSg"
  | .attack => "cAt"
  | .hit => "cHt"
  | .miss => "cMs"

/-- Embeds the `ShipOrientation` enum. -/
inductive ShipOrientation where
  | horizontal
  | vertical
deriving DecidableEq

/-- Embeds the `ShipClass` interface: `{name, size, count}`. -/
structure ShipClass where
  name : String
  size : Nat
  count : Nat
deriving DecidableEq

/-- Embeds the `shipClasses` catalog constant. -/
def shipClasses : List ShipClass :=
  [⟨"Carrier", 5, 1⟩, ⟨"Battleship", 4, 1⟩, ⟨"Cruiser", 3, 1⟩,
   ⟨"Submarine", 3, 1⟩, ⟨"Destroyer", 2, 1⟩]

/-- Embeds the `Ship` class fields: class name, size, head coordinate and
orientation. -/
structure Ship where
  name : String
  size : Nat
  x : Int
  y : Int
  orientation : ShipOrientation
deriving DecidableEq

/-- Embeds the `Ship` constructor, which looks the size up in `shipClasses` by
name (`shipClasses.find(...)`); an unknown name is a lookup failure. -/
def mkShip (name : String) (x y : Int) (orientation : ShipOrientation) : Option Ship :=
  (shipClasses.find? (fun shipClass => shipClass.name == name)).map
    (fun shipClass => ⟨name, shipClass.size, x, y, orientation⟩)

/-- Embeds `Ship.getCoordinates`: `size` cells growing in `x` when horizontal
and in `y` when vertical. -/
def Ship.getCoordinates (s : Ship) : List Coordinate :=
  (List.range s.size).map (fun (i : Nat) =>
    match s.orientation with
    | .horizontal => (s.x + (i : Int), s.y)
    | .vertical => (s.x, s.y + (i : Int)))

/-- Embeds `Ship.isCoordinatesValid`: every occupied cell must satisfy
`0 <= x <= 4` and `0 <= y <= 4` (the source returns `false` on
`x < 0 || x > 4 || y < 0 || y > 4`). -/
def Ship.isCoordinatesValid (s : Ship) : Bool :=
  s.getCoordinates.all (fun c =>
    if c.1 < 0 ∨ c.1 > 4 ∨ c.2 < 0 ∨ c.2 > 4 then false else true)

/-- Embeds the `Cursor` class fields. -/
structure Cursor where
  x : Int
  y : Int
  isHidden : Bool
deriving DecidableEq

/-- Embeds `Cursor.normalizeCoordinates`: `x = x % 5; if (x < 0) x += 5;`
and the same for `y`. -/
def Cursor.normalizeCoordinates (c : Cursor) : Cursor :=
  let x1 := jsMod c.x 5
  let x2 := if x1 < 0 then x1 + 5 else x1
  let y1 := jsMod c.y 5
  let y2 := if y1 < 0 then y1 + 5 else y1
  { c with x := x2, y := y2 }

/-- Embeds `Cursor.moveCursor`: add the deltas, then normalize. -/
def Cursor.moveCursor (c : Cursor) (dx dy : Int) : Cursor :=
  Cursor.normalizeCoordinates { c with x := c.x + dx, y := c.y + dy }

/-- Embeds the `Cursor` constructor: store the starting coordinates and
normalize; the cursor starts visible. -/
def mkCursor (x y : Int) : Cursor :=
  Cursor.normalizeCoordinates ⟨x, y, false⟩

/-- Embeds `Cursor.getCoordinate`: `[this.x, this.y]`. -/
def Cursor.getCoordinate (c : Cursor) : Coordinate := (c.x, c.y)

example : numberToCoordinates (coordinatesToNumber (2, 3)) = (2, 3) := by decide
example : (mkShip "Carrier" 1 0 .horizontal).map Ship.isCoordinatesValid = some false := by decide
example : (mkCursor 0 0).moveCursor 1 0 = ⟨1, 0, false⟩ := by decide
example : (mkCursor 4 0).moveCursor 1 0 = ⟨0, 0, false⟩ := by decide

/-- Embeds the `GameState` const enum of the final game file, including the
`waitingForOtherPlayerToSetup` phase. -/
inductive GameState where
  | connecting
  | setup
  | waitingForOtherPlayerToSetup
  | playing
  | gameOver
deriving DecidableEq

/-- Embeds the `PlayerNumber` const enum: `one` is the first player role and
`two` the second. -/
inductive PlayerNumber where
  | notConnected
  | one
  | two
deriving DecidableEq

/-- A payload carried by a radio message: a plain integer or a coordinate. -/
inductive RadioPayload where
  | num (n : Int)
  | coord (c : Coordinate)
deriving DecidableEq

/-- An outbound radio broadcast, as handed to `GameRadio.sendValue`. -/
abbrev OutMsg := RadioMessageKind × RadioPayload

/-- Embeds the mutable fields of the `Game` class (part_001 version): phase,
mirrored peer phase, role, turn marker, fleet, cursor, and the radio's random
player id. -/
structure Game where
  state : GameState
  otherPlayerState : GameState
  playerNumber : PlayerNumber
  currentTurn : PlayerNumber
  shipsPlaced : List Ship
  cursor : Cursor
  radioPlayerId : Int
deriving DecidableEq

/-- Embeds the `Game` constructor and field initializers: phase `connecting`,
role `notConnected`, turn marker `one`, empty fleet, cursor at the origin and
hidden. -/
def mkGame (playerId : Int) : Game :=
  { state := .connecting
    otherPlayerState := .connecting
    playerNumber := .notConnected
    currentTurn := .one
    shipsPlaced := []
    cursor := { mkCursor 0 0 with isHidden := true }
    radioPlayerId := playerId }

/-- Embeds `Game.isMyTurn`: `playerNumber === currentTurn`. -/
def Game.isMyTurn (g : Game) : Bool :=
  decide (g.playerNumber = g.currentTurn)

/-- The observable outcome of one `connect` message handler: the updated game,
the broadcasts it sent, whether it went on to call `placeShips`, and whether it
logged the player-id-mismatch warning. -/
structure ConnectResult where
  game : Game
  sends : List OutMsg
  beginPlacement : Bool
  warnedIdMismatch : Bool
deriving DecidableEq

/-- Embeds the `playerJoined` handler registered in `Game.connect`: outside
`connecting` it only warns and returns; otherwise it moves to `setup`, takes
role `two`, replies `proceedingToSetup(otherPlayerId)`, records the peer phase
as `setup`, and goes on to place ships. -/
def Game.onPlayerJoined (g : Game) (otherPlayerId : Int) : ConnectResult :=
  if g.state ≠ GameState.connecting then ⟨g, [], false, false⟩
  else
    ⟨{ g with state := .setup, playerNumber := .two, otherPlayerState := .setup },
     [(.proceedingToSetup, .num otherPlayerId)], true, false⟩

/-- Embeds the `proceedingToSetup` handler registered in `Game.connect`: it
logs a warning when the echoed id is falsy or differs from the local player id,
then, only while `connecting`, moves to `setup`, takes role `one`, records the
peer phase as `setup`, and goes on to place ships. -/
def Game.onProceedingToSetup (g : Game) (thisPlayerId : Int) : ConnectResult :=
  let warned := decide (g.radioPlayerId = 0) || decide (g.radioPlayerId ≠ thisPlayerId)
  if g.state ≠ GameState.connecting then ⟨g, [], false, warned⟩
  else
    ⟨{ g with state := .setup, otherPlayerState := .setup, playerNumber := .one },
     [], true, warned⟩

/-- The observable outcome of the `Button.AB` confirm handler registered in
`Game.playGame`: the updated game, the broadcasts sent, and whether the
transient "Wait" indication was shown. -/
structure AttackResult where
  game : Game
  sends : List OutMsg
  showedWait : Bool
deriving DecidableEq

/-- Embeds the `Button.AB` handler of `Game.playGame`: out of turn it shows
"Wait" and sends nothing; in turn it broadcasts `attack` with the cursor
coordinate and flips `currentTurn`. -/
def Game.onConfirmAttack (g : Game) : AttackResult :=
  if !g.isMyTurn then ⟨g, [], true⟩
  else
    ⟨{ g with currentTurn := if g.currentTurn = PlayerNumber.one then .two else .one },
     [(.attack, .coord g.cursor.getCoordinate)], false⟩

/-- Embeds `Game.isHit`: scan every ship of the fleet and every cell it
occupies for a component-wise match with the attacked coordinate. -/
def Game.isHit (g : Game) (coordinate : Coordinate) : Bool :=
  g.shipsPlaced.any (fun ship =>
    ship.getCoordinates.any (fun shipCoordinate =>
      decide (shipCoordinate.1 = coordinate.1) && decide (shipCoordinate.2 = coordinate.2)))

/-- Embeds the `attack` handler of `Game.playGame`: reply `hit` with the
coordinate when `isHit` holds and `miss` otherwise; the game state is not
modified. -/
def Game.onAttackReceived (g : Game) (coordinate : Coordinate) : Game × List OutMsg :=
  if g.isHit coordinate then (g, [(.hit, .coord coordinate)])
  else (g, [(.miss, .coord coordinate)])

/-- One observable effect of `Game.placeShips`, in the order the source
performs them: a phase assignment, the successful placement of one ship, or an
outbound broadcast. -/
inductive PlacementEvent where
  | phaseSet (s : GameState)
  | placed (s : Ship)
  | sent (m : OutMsg)
deriving DecidableEq

/-- The placement loop of `Game.placeShips` iterates over `shipClasses` and,
for each class, over its `count`: the flattened list of ships that must be
placed, in catalog order. -/
def requiredShips (classes : List ShipClass) : List ShipClass :=
  (classes.map (fun shipClass => List.replicate shipClass.count shipClass)).flatten

/-- Embeds the inner `while (!shipPlaced)` loop of `Game.placeShips`: each
confirm press tries a horizontal ship of the given class at the cursor
coordinate, retrying (with no bound on attempts) until `isCoordinatesValid`;
`none` when the supply of confirm presses runs out before a valid placement. -/
def placeOne (shipClass : ShipClass) : List Coordinate → Option (Ship × List Coordinate)
  | [] => none
  | c :: rest =>
    match mkShip shipClass.name c.1 c.2 .horizontal with
    | none => none
    | some ship =>
      if ship.isCoordinatesValid then some (ship, rest) else placeOne shipClass rest

/-- Embeds the nested placement loops of `Game.placeShips`: place every
required ship in order, threading the remaining confirm presses. -/
def placeAll : List ShipClass → List Coordinate → Option (List Ship × List Coordinate)
  | [], confirms => some ([], confirms)
  | shipClass :: rest, confirms =>
    match placeOne shipClass confirms with
    | none => none
    | some (ship, confirms2) =>
      match placeAll rest confirms2 with
      | none => none
      | some (ships, confirms3) => some (ship :: ships, confirms3)

/-- Embeds `Game.placeShips` (part_001 version), driven by the list of cursor
coordinates at which the operator presses confirm. Its effect order is taken
from the source: it first unhides the cursor and assigns
`state = waitingForOtherPlayerToSetup`, then registers the `shipsPlaced` and
`startGame` handlers, then runs the placement loops appending each valid ship
to the fleet, and only after the last ship broadcasts
`shipsPlaced(radioPlayerId)`. The returned trace records those effects in
order. -/
def Game.placeShips (g : Game) (confirms : List Coordinate) :
    Option (Game × List PlacementEvent) :=
  let g1 := { g with
    cursor := { g.cursor with isHidden := false }
    state := GameState.waitingForOtherPlayerToSetup }
  match placeAll (requiredShips shipClasses) confirms with
  | none => none
  | some (ships, _) =>
    some ({ g1 with shipsPlaced := g1.shipsPlaced ++ ships },
      [PlacementEvent.phaseSet GameState.waitingForOtherPlayerToSetup]
        ++ ships.map PlacementEvent.placed
        ++ [PlacementEvent.sent (.shipsPlaced, .num g.radioPlayerId)])

/-- Embeds the `shipsPlaced` handler registered in `Game.placeShips`: only
while the phase is `waitingForOtherPlayerToSetup` it moves to `playing`, sends
`startGame`, and calls `playGame`; otherwise it does nothing. The result is
the new phase, the number of additional `playGame` invocations, and whether
`startGame` was sent. -/
def onShipsPlacedMsg (state : GameState) : GameState × Nat × Bool :=
  if state = GameState.waitingForOtherPlayerToSetup then (GameState.playing, 1, true)
  else (state, 0, false)

/-- Embeds the `startGame` handler registered in `Game.placeShips`: it
unconditionally assigns phase `playing` and calls `playGame`, with no check of
the current phase. -/
def onStartGameMsg (_state : GameState) : GameState × Nat :=
  (GameState.playing, 1)

/-- The four radio deliveries that can occur in the two-peer
`shipsPlaced` / `startGame` race: each peer's `shipsPlaced` broadcast and each
peer's `startGame` reply, named by the receiving peer. -/
inductive RaceMsg where
  | shipsPlacedToA
  | shipsPlacedToB
  | startGameToA
  | startGameToB
deriving DecidableEq

/-- The list of all four race deliveries. -/
def raceMsgs : List RaceMsg :=
  [.shipsPlacedToA, .shipsPlacedToB, .startGameToA, .startGameToB]

/-- A configuration of the two-peer race: each peer's phase and how many times
it has executed `playGame`, plus which broadcasts are still in flight. -/
structure RaceConfig where
  aState : GameState
  aPlayCount : Nat
  bState : GameState
  bPlayCount : Nat
  spToA : Bool
  spToB : Bool
  sgToA : Bool
  sgToB : Bool
deriving DecidableEq

/-- The starting configuration of the race the specification describes: both
peers have finished placement (their phase is `waitingForOtherPlayerToSetup`,
set by `placeShips`) and each `shipsPlaced` broadcast is in flight, neither yet
observed. -/
def raceInit : RaceConfig :=
  ⟨.waitingForOtherPlayerToSetup, 0, .waitingForOtherPlayerToSetup, 0,
   true, true, false, false⟩

/-- Delivers one in-flight broadcast to its peer and runs the registered
handler; `none` when that broadcast is not in flight. A `shipsPlaced` handler
that fires puts the peer's `startGame` reply in flight toward the other peer. -/
def raceDeliver (c : RaceConfig) : RaceMsg → Option RaceConfig
  | .shipsPlacedToA =>
    if c.spToA then
      match onShipsPlacedMsg c.aState with
      | (s, k, send) =>
        some { c with aState := s, aPlayCount := c.aPlayCount + k,
                      spToA := false, sgToB := c.sgToB || send }
    else none
  | .shipsPlacedToB =>
    if c.spToB then
      match onShipsPlacedMsg c.bState with
      | (s, k, send) =>
        some { c with bState := s, bPlayCount := c.bPlayCount + k,
                      spToB := false, sgToA := c.sgToA || send }
    else none
  | .startGameToA =>
    if c.sgToA then
      match onStartGameMsg c.aState with
      | (s, k) => some { c with aState := s, aPlayCount := c.aPlayCount + k, sgToA := false }
    else none
  | .startGameToB =>
    if c.sgToB then
      match onStartGameMsg c.bState with
      | (s, k) => some { c with bState := s, bPlayCount := c.bPlayCount + k, sgToB := false }
    else none

/-- Runs an interleaving: delivers the listed broadcasts in order; `none` when
some listed delivery is not actually in flight at that point. -/
def runRace : RaceConfig → List RaceMsg → Option RaceConfig
  | c, [] => some c
  | c, m :: ms =>
    match raceDeliver c m with
    | none => none
    | some c2 => runRace c2 ms

/-- An interleaving is complete when no broadcast remains in flight. -/
def raceDone (c : RaceConfig) : Bool :=
  !c.spToA && !c.spToB && !c.sgToA && !c.sgToB

/-- The successor configurations of one configuration under every deliverable
broadcast. -/
def raceSuccs (c : RaceConfig) : List RaceConfig :=
  raceMsgs.filterMap (raceDeliver c)

/-- One closure step of the reachable-set computation. -/
def raceStep (l : List RaceConfig) : List RaceConfig :=
  (l ++ (l.map raceSuccs).flatten).dedup

/-- Every configuration reachable from `raceInit` (the race generates at most
four deliveries, so five closure steps suffice; closure is proved below). -/
def raceReach : List RaceConfig :=
  raceStep^[5] [raceInit]

/-- The configuration at the end of the interleaving in which the two
`shipsPlaced` broadcasts cross and each is delivered before the `startGame`
reply it triggers. -/
def raceCrossFinal : RaceConfig :=
  ⟨.playing, 2, .playing, 2, false, false, false, false⟩

/-- The crossing interleaving itself, fully delivered. -/
def raceCrossTrace : List RaceMsg :=
  [.shipsPlacedToA, .shipsPlacedToB, .startGameToA, .startGameToB]

example : raceDone raceCrossFinal = true := by decide
example : runRace raceInit raceCrossTrace = some raceCrossFinal := by decide
example : runRace raceInit [.startGameToA] = none := by decide

lemma race_reach_init : raceInit ∈ raceReach := by decide

lemma race_reach_closed : ∀ c ∈ raceReach, ∀ c2 ∈ raceSuccs c, c2 ∈ raceReach := by decide

lemma race_reach_prop : ∀ c ∈ raceReach,
    (c.aPlayCount ≤ 2 ∧ c.bPlayCount ≤ 2) ∧
    (raceDone c = true →
      c.aState = GameState.playing ∧ c.bState = GameState.playing ∧
      1 ≤ c.aPlayCount ∧ 1 ≤ c.bPlayCount) := by decide

lemma runRace_mem_reach : ∀ (trace : List RaceMsg) (c0 c : RaceConfig),
    c0 ∈ raceReach → runRace c0 trace = some c → c ∈ raceReach := by
  intro trace
  induction trace with
  | nil =>
    intro c0 c h0 h
    rw [runRace] at h
    cases h
    exact h0
  | cons m ms ih =>
    intro c0 c h0 h
    rw [runRace] at h
    cases hd : raceDeliver c0 m with
    | none => rw [hd] at h; cases h
    | some c1 =>
      rw [hd] at h
      refine ih c1 c ?_ h
      refine race_reach_closed c0 h0 c1 (List.mem_filterMap.mpr ⟨m, ?_, hd⟩)
      cases m <;> simp [raceMsgs]

/-- The claim as stated: in every interleaving that delivers all in-flight
broadcasts, each peer executes `playGame` exactly once. -/
def racePlayExactlyOnceClaim : Prop :=
  ∀ (trace : List RaceMsg) (c : RaceConfig),
    runRace raceInit trace = some c → raceDone c = true →
    c.aPlayCount = 1 ∧ c.bPlayCount = 1

/-- A cursor started at `(x, y)` after a sequence of move events. -/
def runCursor (x y : Int) (moves : List (Int × Int)) : Cursor :=
  moves.foldl (fun c d => c.moveCursor d.1 d.2) (mkCursor x y)

lemma tmod_five_bounds (a : Int) : -5 < Int.tmod a 5 ∧ Int.tmod a 5 < 5 := by
  cases a with
  | ofNat m =>
    have h : Int.tmod (Int.ofNat m) 5 = Int.ofNat (m % 5) := rfl
    rw [h, Int.ofNat_eq_natCast]
    omega
  | negSucc m =>
    have h : Int.tmod (Int.negSucc m) 5 = -Int.ofNat ((m + 1) % 5) := rfl
    rw [h, Int.ofNat_eq_natCast]
    omega

lemma normalize_bounds (c : Cursor) :
    0 ≤ c.normalizeCoordinates.x ∧ c.normalizeCoordinates.x ≤ 4 ∧
    0 ≤ c.normalizeCoordinates.y ∧ c.normalizeCoordinates.y ≤ 4 := by
  obtain ⟨hx1, hx2⟩ := tmod_five_bounds c.x
  obtain ⟨hy1, hy2⟩ := tmod_five_bounds c.y
  unfold Cursor.normalizeCoordinates jsMod
  dsimp only
  split_ifs <;> omega

lemma runCursor_foldl_bounds :
    ∀ (moves : List (Int × Int)) (c : Cursor),
      (0 ≤ c.x ∧ c.x ≤ 4 ∧ 0 ≤ c.y ∧ c.y ≤ 4) →
      (0 ≤ (moves.foldl (fun c2 d => c2.moveCursor d.1 d.2) c).x ∧
       (moves.foldl (fun c2 d => c2.moveCursor d.1 d.2) c).x ≤ 4 ∧
       0 ≤ (moves.foldl (fun c2 d => c2.moveCursor d.1 d.2) c).y ∧
       (moves.foldl (fun c2 d => c2.moveCursor d.1 d.2) c).y ≤ 4) := by
  intro moves
  induction moves with
  | nil => intro c h; exact h
  | cons d ds ih =>
    intro c _
    exact ih (c.moveCursor d.1 d.2) (normalize_bounds _)

/-- C1. The claim states that the key catalog is injective — that distinct
message kinds always receive distinct wire keys. The catalog in the source
assigns the same key "nPl" to both `playerLeft` and `shipsPlaced`, so the
mapping is not injective; this evaluates the catalog at the offending pair. -/
theorem c1_wire_key_collision :
    RadioMessageEnum .playerLeft = "nPl" ∧
    RadioMessageEnum .shipsPlaced = "nPl" ∧
    RadioMessageKind.playerLeft ≠ RadioMessageKind.shipsPlaced ∧
    ¬ Function.Injective RadioMessageEnum := by
  refine ⟨rfl, rfl, by decide, fun h => ?_⟩
  exact absurd (@h RadioMessageKind.playerLeft RadioMessageKind.shipsPlaced rfl) (by decide)

/-- C3. Decoding an encoded coordinate returns the original pair for all
components in `[0, 4]`, the encoder is injective over that domain, and the
concrete encodings named by the specification hold. -/
theorem c3_coordinates_roundtrip :
    ∀ x y : Int, 0 ≤ x → x ≤ 4 → 0 ≤ y → y ≤ 4 →
      (numberToCoordinates (coordinatesToNumber (x, y)) = (x, y) ∧
       (∀ x2 y2 : Int, 0 ≤ x2 → x2 ≤ 4 → 0 ≤ y2 → y2 ≤ 4 →
          coordinatesToNumber (x, y) = coordinatesToNumber (x2, y2) → x = x2 ∧ y = y2)) ∧
      (coordinatesToNumber (2, 3) = 17 ∧ numberToCoordinates 17 = (2, 3) ∧
       coordinatesToNumber (0, 0) = 0 ∧ coordinatesToNumber (1, 0) = 1 ∧
       coordinatesToNumber (0, 1) = 5) := by
  intro x y hx0 hx4 hy0 hy4
  refine ⟨⟨?_, ?_⟩, by decide⟩
  · simp only [numberToCoordinates, coordinatesToNumber, jsMod, jsFloorDiv]
    rw [Int.tmod_eq_emod (by omega) (by omega), Int.fdiv_eq_ediv _ (by omega)]
    simp only [Prod.mk.injEq]
    omega
  · intro x2 y2 hx20 hx24 hy20 hy24 h
    simp only [coordinatesToNumber] at h
    omega

/-- C3 witness: the round trip at the concrete coordinate `(2, 3)`. -/
theorem c3_witness :
    numberToCoordinates (coordinatesToNumber ((2 : Int), (3 : Int))) = ((2 : Int), (3 : Int)) :=
  (c3_coordinates_roundtrip 2 3 (by decide) (by decide) (by decide) (by decide)).1.1

/-- C10. After construction and after every sequence of cursor move events,
both cursor components lie in `[0, 4]` — moves wrap modulo 5 — so the
cursor-derived coordinate always encodes into the codec's domain `[0, 24]`. -/
theorem c10_cursor_in_bounds :
    ∀ (x y : Int) (moves : List (Int × Int)),
      (0 ≤ (runCursor x y moves).x ∧ (runCursor x y moves).x ≤ 4 ∧
       0 ≤ (runCursor x y moves).y ∧ (runCursor x y moves).y ≤ 4) ∧
      (0 ≤ coordinatesToNumber ((runCursor x y moves).getCoordinate) ∧
       coordinatesToNumber ((runCursor x y moves).getCoordinate) ≤ 24) := by
  intro x y moves
  have h := runCursor_foldl_bounds moves (mkCursor x y) (normalize_bounds _)
  unfold runCursor
  refine ⟨h, ?_⟩
  simp only [coordinatesToNumber, Cursor.getCoordinate]
  omega

/-- C2 counterexample. In the interleaving where the two crossing
`shipsPlaced` broadcasts are each delivered before the `startGame` reply they
trigger, every delivery lands and both peers execute `playGame` twice — the
`startGame` handler re-enters `playGame` without checking the phase — so the
claim that each peer performs the transition into `playing` exactly once is
false. -/
theorem c2_play_twice_counterexample : ¬ racePlayExactlyOnceClaim := by
  intro h
  have h2 := h raceCrossTrace raceCrossFinal (by decide) (by decide)
  exact absurd h2.1 (by decide)

/-- C2 (amended). In every interleaving of the crossing
`shipsPlaced` / `startGame` deliveries, each peer executes `playGame` at most
twice, and every complete interleaving leaves both peers in the `playing`
phase having executed `playGame` at least once — no double transition beyond
the re-entry through the unguarded `startGame` handler, and no deadlock. -/
theorem c2_race_playing_no_deadlock :
    ∀ (trace : List RaceMsg) (c : RaceConfig),
      runRace raceInit trace = some c →
      (c.aPlayCount ≤ 2 ∧ c.bPlayCount ≤ 2) ∧
      (raceDone c = true →
        c.aState = GameState.playing ∧ c.bState = GameState.playing ∧
        1 ≤ c.aPlayCount ∧ 1 ≤ c.bPlayCount) := by
  intro trace c h
  exact race_reach_prop c (runRace_mem_reach trace raceInit c race_reach_init h)

/-- C2 witness: the amended theorem applied to the fully delivered crossing
interleaving. -/
theorem c2_race_witness :
    (raceCrossFinal.aPlayCount ≤ 2 ∧ raceCrossFinal.bPlayCount ≤ 2) ∧
    (raceCrossFinal.aState = GameState.playing ∧ raceCrossFinal.bState = GameState.playing ∧
     1 ≤ raceCrossFinal.aPlayCount ∧ 1 ≤ raceCrossFinal.bPlayCount) :=
  ⟨(c2_race_playing_no_deadlock raceCrossTrace raceCrossFinal (by decide)).1,
   (c2_race_playing_no_deadlock raceCrossTrace raceCrossFinal (by decide)).2 (by decide)⟩

/-- C4. The claim states the transition to `waitingForOtherPlayerToSetup`
happens only after all required ships are placed. Evaluating `placeShips` on a
run that places all five ships shows the phase assignment is the first
recorded effect, before any ship is placed, while the `shipsPlaced` broadcast
is indeed the last. -/
theorem c4_phase_set_before_placement :
    (mkGame 7).placeShips [(0, 0), (0, 1), (0, 2), (0, 3), (0, 4)] =
      some
        ({ mkGame 7 with
            cursor := { (mkGame 7).cursor with isHidden := false }
            state := GameState.waitingForOtherPlayerToSetup
            shipsPlaced :=
              [⟨"Carrier", 5, 0, 0, .horizontal⟩, ⟨"Battleship", 4, 0, 1, .horizontal⟩,
               ⟨"Cruiser", 3, 0, 2, .horizontal⟩, ⟨"Submarine", 3, 0, 3, .horizontal⟩,
               ⟨"Destroyer", 2, 0, 4, .horizontal⟩] },
         [PlacementEvent.phaseSet GameState.waitingForOtherPlayerToSetup,
          .placed ⟨"Carrier", 5, 0, 0, .horizontal⟩,
          .placed ⟨"Battleship", 4, 0, 1, .horizontal⟩,
          .placed ⟨"Cruiser", 3, 0, 2, .horizontal⟩,
          .placed ⟨"Submarine", 3, 0, 3, .horizontal⟩,
          .placed ⟨"Destroyer", 2, 0, 4, .horizontal⟩,
          .sent (.shipsPlaced, .num 7)]) := by
  decide

/-- C5. From `connecting`, receiving `playerJoined(otherId)` ends in phase
`setup` with role `two` (`Second`), replying `proceedingToSetup(otherId)` and
beginning placement; receiving `proceedingToSetup(id)` ends in phase `setup`
with role `one` (`First`) and begins placement, and an id differing from the
local player id is logged as a warning but does not prevent the transition. -/
theorem c5_handshake_roles :
    ∀ (g g2 : Game) (otherId idEcho : Int),
      g.state = GameState.connecting → g2.state = GameState.connecting →
      ((g.onPlayerJoined otherId).game.state = GameState.setup ∧
       (g.onPlayerJoined otherId).game.playerNumber = PlayerNumber.two ∧
       (g.onPlayerJoined otherId).sends = [(.proceedingToSetup, .num otherId)] ∧
       (g.onPlayerJoined otherId).beginPlacement = true) ∧
      ((g2.onProceedingToSetup idEcho).game.state = GameState.setup ∧
       (g2.onProceedingToSetup idEcho).game.playerNumber = PlayerNumber.one ∧
       (g2.onProceedingToSetup idEcho).sends = [] ∧
       (g2.onProceedingToSetup idEcho).beginPlacement = true ∧
       (g2.radioPlayerId ≠ idEcho → (g2.onProceedingToSetup idEcho).warnedIdMismatch = true)) := by
  intro g g2 otherId idEcho h1 h2
  constructor
  · simp [Game.onPlayerJoined, h1]
  · refine ⟨?_, ?_, ?_, ?_, fun hne => ?_⟩
    · simp [Game.onProceedingToSetup, h2]
    · simp [Game.onProceedingToSetup, h2]
    · simp [Game.onProceedingToSetup, h2]
    · simp [Game.onProceedingToSetup, h2]
    · simp [Game.onProceedingToSetup, h2, hne]

/-- C5 witness: the handshake theorem at a concrete game in `connecting`. -/
theorem c5_witness :
    ((mkGame 7).onPlayerJoined 5).game.state = GameState.setup ∧
    ((mkGame 7).onProceedingToSetup 9).game.playerNumber = PlayerNumber.one :=
  ⟨(c5_handshake_roles (mkGame 7) (mkGame 7) 5 9 rfl rfl).1.1,
   (c5_handshake_roles (mkGame 7) (mkGame 7) 5 9 rfl rfl).2.2.1⟩

/-- C6. Outside the `connecting` phase, delivering `playerJoined` or
`proceedingToSetup` leaves the whole game state unchanged, sends nothing, and
does not begin placement: both handlers are no-ops there. -/
theorem c6_handlers_noop_outside_connecting :
    ∀ (g : Game) (idv : Int), g.state ≠ GameState.connecting →
      ((g.onPlayerJoined idv).game = g ∧ (g.onPlayerJoined idv).sends = [] ∧
       (g.onPlayerJoined idv).beginPlacement = false) ∧
      ((g.onProceedingToSetup idv).game = g ∧ (g.onProceedingToSetup idv).sends = [] ∧
       (g.onProceedingToSetup idv).beginPlacement = false) := by
  intro g idv h
  simp [Game.onPlayerJoined, Game.onProceedingToSetup, h]

/-- C6 witness: the no-op theorem at a concrete game already in `playing`. -/
theorem c6_witness :
    (({ mkGame 7 with state := GameState.playing } : Game).onPlayerJoined 3).game
      = { mkGame 7 with state := GameState.playing } ∧
    (({ mkGame 7 with state := GameState.playing } : Game).onProceedingToSetup 3).game
      = { mkGame 7 with state := GameState.playing } :=
  ⟨(c6_handlers_noop_outside_connecting { mkGame 7 with state := GameState.playing } 3
      (by decide)).1.1,
   (c6_handlers_noop_outside_connecting { mkGame 7 with state := GameState.playing } 3
      (by decide)).2.1⟩

/-- The destroyer placed with head `(0, 0)`, as the `Ship` constructor builds
it: a length-2 horizontal ship. -/
def demoDestroyer : Ship := ⟨"Destroyer", 2, 0, 0, .horizontal⟩

/-- A game whose fleet contains only `demoDestroyer`. -/
def demoFleetGame : Game := { mkGame 7 with shipsPlaced := [demoDestroyer] }

/-- C7. `isHit` returns true exactly when some ship of the fleet occupies the
attacked coordinate; the `attack` handler leaves the game unchanged (a pure
read of the fleet) and replies `hit` or `miss` accordingly; and on the fleet
with only the length-2 ship at `(0, 0)` the three concrete probes answer as
the specification states. -/
theorem c7_isHit_spec :
    ∀ (g : Game) (c : Coordinate),
      (g.isHit c = true ↔ ∃ s, s ∈ g.shipsPlaced ∧ c ∈ s.getCoordinates) ∧
      ((g.onAttackReceived c).1 = g ∧
       (g.onAttackReceived c).2 =
         [((if g.isHit c then RadioMessageKind.hit else RadioMessageKind.miss),
           RadioPayload.coord c)]) ∧
      (mkShip "Destroyer" 0 0 .horizontal = some demoDestroyer ∧
       demoFleetGame.isHit (0, 0) = true ∧ demoFleetGame.isHit (1, 0) = true ∧
       demoFleetGame.isHit (2, 0) = false) := by
  intro g c
  refine ⟨?_, ?_, by decide⟩
  · simp only [Game.isHit, List.any_eq_true, Bool.and_eq_true, decide_eq_true_eq]
    constructor
    · rintro ⟨s, hs, sc, hsc, h1, h2⟩
      exact ⟨s, hs, by rwa [show sc = c from Prod.ext h1 h2] at hsc⟩
    · rintro ⟨s, hs, hc⟩
      exact ⟨s, hs, c, hc, rfl, rfl⟩
  · cases hih : g.isHit c <;> simp [Game.onAttackReceived, hih]

/-- The carrier placed with head `(1, 0)`, as the `Ship` constructor builds
it: a length-5 horizontal ship that overflows the 5-wide grid. -/
def carrierAtOne : Ship := ⟨"Carrier", 5, 1, 0, .horizontal⟩

/-- C8. A horizontal ship occupies exactly the `size` cells growing in `x`
from its head, a vertical one the cells growing in `y`; `isCoordinatesValid`
holds exactly when every occupied cell has both components in `[0, 4]`; and
the length-5 carrier is invalid at head `(1, 0)` but valid at `(0, 0)`. -/
theorem c8_ship_cells_spec :
    ∀ (s : Ship) (c : Coordinate),
      (s.orientation = ShipOrientation.horizontal →
        (c ∈ s.getCoordinates ↔ ∃ i : Nat, i < s.size ∧ c = (s.x + (i : Int), s.y))) ∧
      (s.orientation = ShipOrientation.vertical →
        (c ∈ s.getCoordinates ↔ ∃ i : Nat, i < s.size ∧ c = (s.x, s.y + (i : Int)))) ∧
      (s.isCoordinatesValid = true ↔
        ∀ c2 ∈ s.getCoordinates, 0 ≤ c2.1 ∧ c2.1 ≤ 4 ∧ 0 ≤ c2.2 ∧ c2.2 ≤ 4) ∧
      ((mkShip "Carrier" 1 0 .horizontal).map Ship.getCoordinates =
         some [(1, 0), (2, 0), (3, 0), (4, 0), (5, 0)] ∧
       (mkShip "Carrier" 1 0 .horizontal).map Ship.isCoordinatesValid = some false ∧
       (mkShip "Carrier" 0 0 .horizontal).map Ship.isCoordinatesValid = some true) := by
  intro s c
  refine ⟨?_, ?_, ?_, by decide⟩
  · intro ho
    unfold Ship.getCoordinates
    constructor
    · intro hc
      obtain ⟨i, hi, hfc⟩ := List.mem_map.mp hc
      rw [List.mem_range] at hi
      rw [ho] at hfc
      exact ⟨i, hi, hfc.symm⟩
    · rintro ⟨i, hi, heq⟩
      refine List.mem_map.mpr ⟨i, List.mem_range.mpr hi, ?_⟩
      rw [ho]
      exact heq.symm
  · intro hv
    unfold Ship.getCoordinates
    constructor
    · intro hc
      obtain ⟨i, hi, hfc⟩ := List.mem_map.mp hc
      rw [List.mem_range] at hi
      rw [hv] at hfc
      exact ⟨i, hi, hfc.symm⟩
    · rintro ⟨i, hi, heq⟩
      refine List.mem_map.mpr ⟨i, List.mem_range.mpr hi, ?_⟩
      rw [hv]
      exact heq.symm
  · simp only [Ship.isCoordinatesValid, List.all_eq_true]
    have hbody : ∀ c2 : Coordinate,
        ((if c2.1 < 0 ∨ c2.1 > 4 ∨ c2.2 < 0 ∨ c2.2 > 4 then false else true) = true) ↔
        (0 ≤ c2.1 ∧ c2.1 ≤ 4 ∧ 0 ≤ c2.2 ∧ c2.2 ≤ 4) := by
      intro c2
      split_ifs with hsplit
      · constructor
        · intro hfalse; cases hfalse
        · intro hb; omega
      · constructor
        · intro _; omega
        · intro _; rfl
    exact forall₂_congr (fun c2 _ => hbody c2)

/-- C8 witness: the occupied-cell description applied to the concrete
length-5 carrier at head `(1, 0)`. -/
theorem c8_witness :
    ((5 : Int), (0 : Int)) ∈ carrierAtOne.getCoordinates ↔
      ∃ i : Nat, i < carrierAtOne.size ∧
        ((5 : Int), (0 : Int)) = (carrierAtOne.x + (i : Int), carrierAtOne.y) :=
  (c8_ship_cells_spec carrierAtOne (5, 0)).1 rfl

/-- C9. While it is the local player's turn, a confirm event broadcasts
`attack` with the cursor coordinate and flips the turn marker to the other
role, leaving phase, role and fleet unchanged; out of turn it shows the
transient wait indication, sends nothing and changes nothing; and the turn
marker of a fresh game starts at `one` (role `First`). -/
theorem c9_confirm_attack_spec :
    ∀ (g : Game) (pid : Int),
      (g.isMyTurn = true →
        ((g.onConfirmAttack).sends = [(.attack, .coord g.cursor.getCoordinate)] ∧
         (g.onConfirmAttack).game.currentTurn =
           (if g.currentTurn = PlayerNumber.one then PlayerNumber.two else PlayerNumber.one) ∧
         (g.onConfirmAttack).showedWait = false ∧
         (g.onConfirmAttack).game.state = g.state ∧
         (g.onConfirmAttack).game.playerNumber = g.playerNumber ∧
         (g.onConfirmAttack).game.shipsPlaced = g.shipsPlaced ∧
         (g.playerNumber = PlayerNumber.one →
           (g.onConfirmAttack).game.currentTurn = PlayerNumber.two) ∧
         (g.playerNumber = PlayerNumber.two →
           (g.onConfirmAttack).game.currentTurn = PlayerNumber.one))) ∧
      (g.isMyTurn = false → g.onConfirmAttack = ⟨g, [], true⟩) ∧
      (mkGame pid).currentTurn = PlayerNumber.one := by
  intro g pid
  have hturn : g.isMyTurn = true → g.playerNumber = g.currentTurn := by
    intro h
    exact of_decide_eq_true h
  refine ⟨fun h => ?_, fun h => ?_, rfl⟩
  · have hpc : g.playerNumber = g.currentTurn := hturn h
    refine ⟨?_, ?_, ?_, ?_, ?_, ?_, fun hp => ?_, fun hp => ?_⟩
    · simp [Game.onConfirmAttack, h]
    · simp [Game.onConfirmAttack, h]
    · simp [Game.onConfirmAttack, h]
    · simp [Game.onConfirmAttack, h]
    · simp [Game.onConfirmAttack, h]
    · simp [Game.onConfirmAttack, h]
    · have hc : g.currentTurn = PlayerNumber.one := by rw [← hpc, hp]
      simp [Game.onConfirmAttack, h, hc]
    · have hc : g.currentTurn = PlayerNumber.two := by rw [← hpc, hp]
      simp [Game.onConfirmAttack, h, hc]
  · simp [Game.onConfirmAttack, h]

/-- C9 witness: in turn with role `one` a fresh game's confirm broadcasts the
attack; a fresh unassigned game's confirm is rejected with the wait
indication. -/
theorem c9_witness :
    (({ mkGame 7 with playerNumber := PlayerNumber.one } : Game).onConfirmAttack).sends =
      [(.attack, .coord ({ mkGame 7 with playerNumber := PlayerNumber.one } : Game).cursor.getCoordinate)] ∧
    (mkGame 7).onConfirmAttack = ⟨mkGame 7, [], true⟩ :=
  ⟨((c9_confirm_attack_spec { mkGame 7 with playerNumber := PlayerNumber.one } 7).1
      (by decide)).1,
   (c9_confirm_attack_spec (mkGame 7) 7).2.1 (by decide)⟩

end Battleship
